import Mathlib

/-!
Verification of the pressure-index core of the repository
(`src/utils/pressure_index.py`).

Conventions of the embedding:
* Python `int` values become `ℤ`; Python `float` arithmetic is idealised as
  exact arithmetic, with `ℚ` used where only field operations occur and `ℝ`
  where `exp` appears.  The `float('inf')` sentinel is modelled by `⊤` of
  `EReal` (for pressure-index values) and by `none : Option ℚ` (for the
  current required run rate, which the source can return as infinity).
* The Duckworth–Lewis lookup dictionary built by `DuckworthLewisTable` is
  modelled as a partial map `Grid`; `dict.get(key, 0.0)` becomes
  `(g o w).getD 0`.
* Python dictionaries that the strategic-projection code builds keyed on
  strings / zone names are modelled as lookup functions returning `Option`.
-/

/-- The Duckworth–Lewis lookup table `self.lookup` of `DuckworthLewisTable`:
a partial map from `(overs_left, wickets_lost)` to a resource percentage. -/
abbrev Grid := ℤ → ℤ → Option ℚ

/-- Effective value of a grid cell: `self.lookup.get((o, w), 0.0)`. -/
def gridVal (g : Grid) (o w : ℤ) : ℚ :=
  (g o w).getD 0

/-- Python `int(q)` on a float/rational: truncation toward zero. -/
def pyint (q : ℚ) : ℤ :=
  if 0 ≤ q then ⌊q⌋ else ⌈q⌉

/-- `DuckworthLewisTable.get_resources_remaining`: clamp wickets into `[0,9]`,
truncate the overs into an integer part and a fractional part, clamp the
integer part and its successor into `[0,20]`, return `0` when the clamped
floor is `0`, and otherwise linearly interpolate between the two grid cells
(absent cells read as `0`). -/
def get_resources_remaining (g : Grid) (overs_left : ℚ) (wickets_lost : ℤ) : ℚ :=
  let w := max 0 (min 9 wickets_lost)
  let overs_floor := max 0 (min 20 (pyint overs_left))
  let overs_ceil := max 0 (min 20 (pyint overs_left + 1))
  let fraction := overs_left - (pyint overs_left : ℚ)
  if overs_floor = 0 then 0
  else
    let res_floor := gridVal g overs_floor w
    let res_ceil := gridVal g overs_ceil w
    if overs_ceil = overs_floor then res_floor
    else res_floor + fraction * (res_ceil - res_floor)

/-- `DuckworthLewisTable.get_resources_used`. -/
def get_resources_used (g : Grid) (balls_faced wickets_lost total_balls : ℤ) : ℚ :=
  max 0 (100 - get_resources_remaining g (((total_balls - balls_faced : ℤ) : ℚ) / 6) wickets_lost)

/-- The Lemmer wicket weights `WICKET_WEIGHTS`, with `dict.get(i, 0)`
semantics for keys outside `1..11`; the source's decimal literals are
written as the exact fractions they denote. -/
def wicketWeight (i : ℤ) : ℚ :=
  if i = 1 then 13/10
  else if i = 2 then 27/20
  else if i = 3 then 7/5
  else if i = 4 then 29/20
  else if i = 5 then 69/50
  else if i = 6 then 59/50
  else if i = 7 then 49/50
  else if i = 8 then 79/100
  else if i = 9 then 59/100
  else if i = 10 then 39/100
  else if i = 11 then 19/100
  else 0

/-- `PressureIndexCalculator.calculate_wicket_weight_sum`: the sum of the
weights of the wickets `1 .. min wickets_lost 11` (Python
`range(1, min(wickets_lost + 1, 12))`). -/
def calculate_wicket_weight_sum (wickets_lost : ℤ) : ℚ :=
  if wickets_lost ≤ 0 then 0
  else ∑ i in Finset.Icc (1 : ℤ) (min wickets_lost 11), wicketWeight i

/-- `PressureIndexCalculator.calculate_initial_required_run_rate`. -/
def calculate_initial_required_run_rate (target total_balls : ℤ) : ℚ :=
  if total_balls = 0 then 0
  else ((target * 6 : ℤ) : ℚ) / ((total_balls : ℤ) : ℚ)

/-- `PressureIndexCalculator.calculate_current_required_run_rate`;
`none` models the `float('inf')` the source returns when balls are
exhausted but runs remain. -/
def calculate_current_required_run_rate (target runs_scored balls_faced total_balls : ℤ) :
    Option ℚ :=
  if total_balls - balls_faced ≤ 0 then
    if target - runs_scored ≤ 0 then some 0 else none
  else some (((target - runs_scored) * 6 : ℤ) / ((total_balls - balls_faced : ℤ) : ℚ))

/-- `PressureIndexCalculator.calculate_pressure_index`.  The result lives in
`EReal`: `⊤` is the `float('inf')` sentinel.  When the current required run
rate is infinite the Python expression `inf / irrr * 0.5 * (...)`, censored
at `0`, is `inf` for positive `irrr` and `0` otherwise. -/
noncomputable def calculate_pressure_index (g : Grid)
    (target runs_scored balls_faced wickets_lost total_balls : ℤ) : EReal :=
  if target ≤ runs_scored then 0
  else if 10 ≤ wickets_lost then ⊤
  else if calculate_initial_required_run_rate target total_balls = 0 then 0
  else
    match calculate_current_required_run_rate target runs_scored balls_faced total_balls with
    | none => if 0 < calculate_initial_required_run_rate target total_balls then (⊤ : EReal) else 0
    | some crrr =>
        (((max 0
          (((crrr / calculate_initial_required_run_rate target total_balls : ℚ) : ℝ) * 0.5 *
            (Real.exp (((get_resources_used g balls_faced wickets_lost total_balls / 100 : ℚ)) : ℝ) +
             Real.exp (((calculate_wicket_weight_sum wickets_lost / 11 : ℚ)) : ℝ)))) : ℝ) : EReal)

/-- The phase of an over number (`get_phase`). -/
inductive Phase
  | powerplay
  | middle_overs
  | death_overs
deriving DecidableEq, BEq

/-- The four strategic zones. -/
inductive Zone
  | target
  | acceptable
  | risky
  | avoid
deriving DecidableEq, BEq

/-- `get_phase`. -/
def get_phase (over : ℤ) : Phase :=
  if over ≤ 6 then Phase.powerplay
  else if over ≤ 16 then Phase.middle_overs
  else Phase.death_overs

/-- `STRATEGIC_ZONES`: per phase, the ordered list of zone intervals as the
source dictionary stores them; an upper bound of `none` is `float('inf')`.
The source's decimal literals (`0.5`, `1.5`, ...) are written as the exact
fractions they denote. -/
def STRATEGIC_ZONES (p : Phase) : List (Zone × ℚ × Option ℚ) :=
  match p with
  | Phase.powerplay =>
      [(Zone.target, 0, some (1/2)), (Zone.acceptable, 1/2, some 1),
       (Zone.risky, 1, some (3/2)), (Zone.avoid, 3/2, none)]
  | Phase.middle_overs =>
      [(Zone.target, 0, some 1), (Zone.acceptable, 1, some (3/2)),
       (Zone.risky, 3/2, some (5/2)), (Zone.avoid, 5/2, none)]
  | Phase.death_overs =>
      [(Zone.target, 0, some 1), (Zone.acceptable, 1, some (5/2)),
       (Zone.risky, 5/2, some (7/2)), (Zone.avoid, 7/2, none)]

/-- Interpret a stored upper bound as an extended real. -/
noncomputable def ubound : Option ℚ → EReal
  | none => ⊤
  | some q => ((q : ℝ) : EReal)

/-- The lower bound of a zone interval in a phase's table. -/
def zoneLowQ (ph : Phase) (z : Zone) : ℚ :=
  match ph, z with
  | Phase.powerplay, Zone.target => 0
  | Phase.powerplay, Zone.acceptable => 1/2
  | Phase.powerplay, Zone.risky => 1
  | Phase.powerplay, Zone.avoid => 3/2
  | Phase.middle_overs, Zone.target => 0
  | Phase.middle_overs, Zone.acceptable => 1
  | Phase.middle_overs, Zone.risky => 3/2
  | Phase.middle_overs, Zone.avoid => 5/2
  | Phase.death_overs, Zone.target => 0
  | Phase.death_overs, Zone.acceptable => 1
  | Phase.death_overs, Zone.risky => 5/2
  | Phase.death_overs, Zone.avoid => 7/2

/-- The stored upper bound of a zone interval in a phase's table. -/
def zoneUpperQ (ph : Phase) (z : Zone) : Option ℚ :=
  match ph, z with
  | Phase.powerplay, Zone.target => some (1/2)
  | Phase.powerplay, Zone.acceptable => some 1
  | Phase.powerplay, Zone.risky => some (3/2)
  | Phase.powerplay, Zone.avoid => none
  | Phase.middle_overs, Zone.target => some 1
  | Phase.middle_overs, Zone.acceptable => some (3/2)
  | Phase.middle_overs, Zone.risky => some (5/2)
  | Phase.middle_overs, Zone.avoid => none
  | Phase.death_overs, Zone.target => some 1
  | Phase.death_overs, Zone.acceptable => some (5/2)
  | Phase.death_overs, Zone.risky => some (7/2)
  | Phase.death_overs, Zone.avoid => none

/-- The upper bound of a zone interval, as an extended real. -/
noncomputable def zoneUpper (ph : Phase) (z : Zone) : EReal :=
  ubound (zoneUpperQ ph z)

open Classical in
/-- The loop body of `get_zone_for_pi`: scan the interval list in order and
return the first interval containing `pi`; fall through to `avoid`. -/
noncomputable def findZone (pi : EReal) : List (Zone × ℚ × Option ℚ) → Zone
  | [] => Zone.avoid
  | (z, lo, hi) :: rest =>
      if ((lo : ℝ) : EReal) ≤ pi ∧ pi < ubound hi then z else findZone pi rest

/-- `get_zone_for_pi`. -/
noncomputable def get_zone_for_pi (pi : EReal) (ph : Phase) : Zone :=
  findZone pi (STRATEGIC_ZONES ph)

open Classical in
/-- Fuelled first-satisfier scan: `searchAux p fuel s` returns the first
`n ∈ [s, s + fuel)` with `p n` (the body of the
`for runs_needed in range(...)` loop). -/
noncomputable def searchAux (p : ℕ → Prop) : ℕ → ℕ → Option ℕ
  | 0, _ => none
  | fuel + 1, s => if p s then some s else searchAux p fuel (s + 1)

/-- `calculate_required_runs_for_zone`.  Note that the source scans with
`calculate_pressure_index(...)` called *without* `total_balls`, hence with
the default `120`, and that the `current_pi` argument is never used. -/
noncomputable def calculate_required_runs_for_zone (g : Grid) (current_pi : EReal)
    (target runs_scored balls_faced wickets_lost balls_ahead : ℤ)
    (phase : Phase) (zone : Zone) : Option ℤ :=
  match (STRATEGIC_ZONES phase).lookup zone with
  | none => none
  | some zone_bounds =>
      let target_pi := ubound zone_bounds.2
      let new_balls := balls_faced + balls_ahead
      if target - runs_scored ≤ 0 then some 0
      else
        (searchAux
          (fun n => calculate_pressure_index g target (runs_scored + (n : ℤ)) new_balls
              wickets_lost 120 < target_pi)
          ((target - runs_scored).toNat + 1) 0).map (fun (n : ℕ) => (n : ℤ))

/-- The projection record stored for one zone of one horizon. -/
structure ZoneProjection where
  runs : Option ℤ
  rpo : Option ℚ
  achievable : Bool
deriving DecidableEq

/-- Round half to even, the rounding mode of Python `round`. -/
def roundHalfEven (q : ℚ) : ℤ :=
  if q - ⌊q⌋ < 1/2 then ⌊q⌋
  else if 1/2 < q - ⌊q⌋ then ⌊q⌋ + 1
  else if Even ⌊q⌋ then ⌊q⌋ else ⌊q⌋ + 1

/-- Python `round(q, 2)` on exact values. -/
def round2 (q : ℚ) : ℚ :=
  (roundHalfEven (q * 100) : ℚ) / 100

/-- The per-zone dictionary entry `calculate_strategic_projections` builds
from the search result. -/
def mkZoneProjection (runs_needed : Option ℤ) (balls_ahead : ℤ) : ZoneProjection :=
  match runs_needed with
  | some n =>
      { runs := some n,
        rpo := some (round2 (if 0 < balls_ahead then ((n : ℚ) / (balls_ahead : ℚ)) * 6 else 0)),
        achievable := true }
  | none => { runs := none, rpo := none, achievable := false }

/-- The `zones` dictionary of one horizon: entries for `target`,
`acceptable` and `risky` only, modelled as a lookup function. -/
noncomputable def zonesFun (g : Grid) (current_pi : EReal)
    (target runs_scored balls_faced wickets_lost balls_ahead : ℤ) (phase : Phase) :
    Zone → Option ZoneProjection :=
  fun z =>
    if z = Zone.avoid then none
    else some (mkZoneProjection
      (calculate_required_runs_for_zone g current_pi target runs_scored balls_faced
        wickets_lost balls_ahead phase z) balls_ahead)

/-- The data stored for one lookahead horizon. -/
structure HorizonData where
  balls : ℤ
  zones : Zone → Option ZoneProjection

/-- One iteration of the horizon loop of `calculate_strategic_projections`:
clip the lookahead at the innings length and skip the horizon when nothing
remains. -/
noncomputable def horizonItem (g : Grid) (current_pi : EReal)
    (target runs_scored balls_faced wickets_lost total_balls : ℤ)
    (phase : Phase) (overs_ahead : ℤ) : Option HorizonData :=
  let balls_ahead :=
    if total_balls < balls_faced + overs_ahead * 6 then total_balls - balls_faced
    else overs_ahead * 6
  if balls_ahead ≤ 0 then none
  else some
    { balls := balls_ahead,
      zones := zonesFun g current_pi target runs_scored balls_faced wickets_lost
        balls_ahead phase }

/-- The dictionary returned by `calculate_strategic_projections`. -/
structure Projections where
  current_pi : EReal
  phase : Phase
  horizons : String → Option HorizonData

/-- `calculate_strategic_projections`. -/
noncomputable def calculate_strategic_projections (g : Grid)
    (target runs_scored balls_faced wickets_lost total_balls : ℤ) : Projections :=
  let cpi := calculate_pressure_index g target runs_scored balls_faced wickets_lost total_balls
  let ph := get_phase (Int.fdiv balls_faced 6 + 1)
  { current_pi := cpi,
    phase := ph,
    horizons := fun label =>
      if label = "next_1_over" then
        horizonItem g cpi target runs_scored balls_faced wickets_lost total_balls ph 1
      else if label = "next_2_overs" then
        horizonItem g cpi target runs_scored balls_faced wickets_lost total_balls ph 2
      else if label = "next_3_overs" then
        horizonItem g cpi target runs_scored balls_faced wickets_lost total_balls ph 3
      else none }

/-- The `runs` entry recorded for one horizon and one zone of a projection
dictionary (`None` at a level where the horizon or zone is absent). -/
noncomputable def horizonZoneRuns (P : Projections) (label : String) (z : Zone) :
    Option (Option ℤ) :=
  (P.horizons label).bind fun hd => (hd.zones z).map ZoneProjection.runs

/-- The predicate the projection scan tests at offset `n`, with an explicit
innings length `B` threaded into the recomputed pressure index. -/
noncomputable def projPredB (g : Grid) (B target runs_scored balls_faced wickets_lost balls_ahead : ℤ)
    (bound : EReal) (n : ℤ) : Prop :=
  calculate_pressure_index g target (runs_scored + n) (balls_faced + balls_ahead)
    wickets_lost B < bound

/-- The predicate the projection scan of the source actually tests: the
pressure index is recomputed with the engine default `total_balls = 120`. -/
noncomputable def projPred (g : Grid) (target runs_scored balls_faced wickets_lost balls_ahead : ℤ)
    (bound : EReal) (n : ℤ) : Prop :=
  projPredB g 120 target runs_scored balls_faced wickets_lost balls_ahead bound n

/-- The projection search as §4.4 of the specification words it, with the
supplied innings length `B` threaded into every recomputed pressure index;
`calculate_required_runs_for_zone` coincides with this at `B = 120` only. -/
noncomputable def required_runs_for_zone_with_total (g : Grid) (B : ℤ) (current_pi : EReal)
    (target runs_scored balls_faced wickets_lost balls_ahead : ℤ)
    (phase : Phase) (zone : Zone) : Option ℤ :=
  match (STRATEGIC_ZONES phase).lookup zone with
  | none => none
  | some zone_bounds =>
      let target_pi := ubound zone_bounds.2
      let new_balls := balls_faced + balls_ahead
      if target - runs_scored ≤ 0 then some 0
      else
        (searchAux
          (fun n => calculate_pressure_index g target (runs_scored + (n : ℤ)) new_balls
              wickets_lost B < target_pi)
          ((target - runs_scored).toNat + 1) 0).map (fun (n : ℕ) => (n : ℤ))

/-- The clipped lookahead (in balls) that `calculate_strategic_projections`
uses for a horizon label, `none` when the label is unknown or the horizon is
skipped. -/
def horizonBalls (balls_faced total_balls : ℤ) (label : String) : Option ℤ :=
  if label = "next_1_over" ∨ label = "next_2_overs" ∨ label = "next_3_overs" then
    let oa : ℤ := if label = "next_1_over" then 1 else if label = "next_2_overs" then 2 else 3
    let ba := if total_balls < balls_faced + oa * 6 then total_balls - balls_faced else oa * 6
    if ba ≤ 0 then none else some ba
  else none

/-- `get_resources_remaining` as §4.1 of the specification words it: split
`overs_left` into floor and fractional part, clamp both indices, interpolate
linearly, and return `0` whenever the clamped floor is `0`. -/
def resources_remaining_spec (g : Grid) (overs_left : ℚ) (wickets_lost : ℤ) : ℚ :=
  let w := max 0 (min 9 wickets_lost)
  let f := max 0 (min 20 ⌊overs_left⌋)
  let c := max 0 (min 20 (⌊overs_left⌋ + 1))
  if f = 0 then 0
  else gridVal g f w + (overs_left - ⌊overs_left⌋) * (gridVal g c w - gridVal g f w)

/-- The synthetic three-row grid of §8 of the specification. -/
def gSyn : Grid := fun o w =>
  if o = 0 ∧ 0 ≤ w ∧ w ≤ 9 then some 0
  else if o = 1 ∧ w = 0 then some 50
  else if o = 1 ∧ w = 1 then some 40
  else if o = 2 ∧ w = 0 then some 100
  else if o = 2 ∧ w = 1 then some 80
  else none

/-- A grid holding `100` in every cell the table loader would populate. -/
def gFull : Grid := fun o w =>
  if 1 ≤ o ∧ o ≤ 20 ∧ 0 ≤ w ∧ w ≤ 9 then some 100 else none

/-- A grid holding `100` everywhere (trivially monotone in both arguments). -/
def g100 : Grid := fun _ _ => some 100

/-- A non-constant resource grid populated exactly on the loader's domain
(overs 0..20 by wickets 0..9), increasing in overs and decreasing in
wickets; cells outside the table are absent, as with a loaded CSV. -/
def gMono : Grid := fun o w =>
  if 0 ≤ o ∧ o ≤ 20 ∧ 0 ≤ w ∧ w ≤ 9 then some (((4 * o + 20 - w : ℤ) : ℚ)) else none

/-- Checked division: `none` exactly where Python would raise
`ZeroDivisionError`. -/
def divq (a b : ℚ) : Option ℚ :=
  if b = 0 then none else some (a / b)

/-- `calculate_initial_required_run_rate` with its division checked. -/
def irrr_checked (target total_balls : ℤ) : Option ℚ :=
  if total_balls = 0 then some 0
  else divq ((target * 6 : ℤ) : ℚ) ((total_balls : ℤ) : ℚ)

/-- `calculate_current_required_run_rate` with its division checked; the
inner `Option ℚ` is the infinity sentinel as before. -/
def crrr_checked (target runs_scored balls_faced total_balls : ℤ) : Option (Option ℚ) :=
  if total_balls - balls_faced ≤ 0 then
    if target - runs_scored ≤ 0 then some (some 0) else some none
  else (divq (((target - runs_scored) * 6 : ℤ) : ℚ) ((total_balls - balls_faced : ℤ) : ℚ)).map some

/-- `get_resources_used` with its division checked. -/
def resources_used_checked (g : Grid) (balls_faced wickets_lost total_balls : ℤ) : Option ℚ :=
  (divq ((total_balls - balls_faced : ℤ) : ℚ) 6).map fun overs_left =>
    max 0 (100 - get_resources_remaining g overs_left wickets_lost)

/-- `calculate_pressure_index` with every division checked: `none` would mean
a raised exception, which the guards of the source rule out. -/
noncomputable def pressure_index_checked (g : Grid)
    (target runs_scored balls_faced wickets_lost total_balls : ℤ) : Option EReal :=
  if target ≤ runs_scored then some 0
  else if 10 ≤ wickets_lost then some ⊤
  else
    match irrr_checked target total_balls with
    | none => none
    | some irrr =>
      if irrr = 0 then some 0
      else
        match crrr_checked target runs_scored balls_faced total_balls with
        | none => none
        | some none => some (if 0 < irrr then (⊤ : EReal) else 0)
        | some (some c) =>
          match divq c irrr with
          | none => none
          | some ci =>
            match resources_used_checked g balls_faced wickets_lost total_balls with
            | none => none
            | some ru =>
              match divq ru 100, divq (calculate_wicket_weight_sum wickets_lost) 11 with
              | some ruq, some swq =>
                  some (((max 0 ((ci : ℝ) * 0.5 *
                    (Real.exp (ruq : ℝ) + Real.exp (swq : ℝ))) : ℝ) : EReal))
              | _, _ => none

open Classical in
/-- The scan of `calculate_required_runs_for_zone` with checked pressure-index
evaluations threaded through. -/
noncomputable def searchAuxChecked (f : ℕ → Option EReal) (bound : EReal) :
    ℕ → ℕ → Option (Option ℕ)
  | 0, _ => some none
  | fuel + 1, s =>
      match f s with
      | none => none
      | some v => if v < bound then some (some s) else searchAuxChecked f bound fuel (s + 1)

/-- `calculate_required_runs_for_zone` with checked arithmetic. -/
noncomputable def required_runs_checked (g : Grid) (current_pi : EReal)
    (target runs_scored balls_faced wickets_lost balls_ahead : ℤ)
    (phase : Phase) (zone : Zone) : Option (Option ℤ) :=
  match (STRATEGIC_ZONES phase).lookup zone with
  | none => some none
  | some zone_bounds =>
      let target_pi := ubound zone_bounds.2
      let new_balls := balls_faced + balls_ahead
      if target - runs_scored ≤ 0 then some (some 0)
      else
        (searchAuxChecked
          (fun n => pressure_index_checked g target (runs_scored + (n : ℤ)) new_balls
              wickets_lost 120)
          target_pi ((target - runs_scored).toNat + 1) 0).map (Option.map Int.ofNat)

/-- The per-zone entry construction with its rate division checked. -/
def mkZoneProjection_checked (runs_needed : Option ℤ) (balls_ahead : ℤ) : Option ZoneProjection :=
  match runs_needed with
  | some n =>
      match (if 0 < balls_ahead then divq (n : ℚ) ((balls_ahead : ℤ) : ℚ) else some 0) with
      | none => none
      | some q =>
          some { runs := some n,
                 rpo := some (round2 (if 0 < balls_ahead then q * 6 else q)),
                 achievable := true }
  | none => some { runs := none, rpo := none, achievable := false }

/-- One horizon of `calculate_strategic_projections` with checked arithmetic;
the outer `Option` is the exception level, the inner one the skip. -/
noncomputable def horizonItem_checked (g : Grid) (current_pi : EReal)
    (target runs_scored balls_faced wickets_lost total_balls : ℤ)
    (phase : Phase) (overs_ahead : ℤ) : Option (Option HorizonData) :=
  let balls_ahead :=
    if total_balls < balls_faced + overs_ahead * 6 then total_balls - balls_faced
    else overs_ahead * 6
  if balls_ahead ≤ 0 then some none
  else
    match required_runs_checked g current_pi target runs_scored balls_faced wickets_lost
        balls_ahead phase Zone.target,
      required_runs_checked g current_pi target runs_scored balls_faced wickets_lost
        balls_ahead phase Zone.acceptable,
      required_runs_checked g current_pi target runs_scored balls_faced wickets_lost
        balls_ahead phase Zone.risky with
    | some rt, some ra, some rr =>
      match mkZoneProjection_checked rt balls_ahead, mkZoneProjection_checked ra balls_ahead,
        mkZoneProjection_checked rr balls_ahead with
      | some zt, some za, some zr =>
          some (some
            { balls := balls_ahead,
              zones := fun z =>
                if z = Zone.avoid then none
                else if z = Zone.target then some zt
                else if z = Zone.acceptable then some za
                else some zr })
      | _, _, _ => none
    | _, _, _ => none

/-- `calculate_strategic_projections` with checked arithmetic throughout. -/
noncomputable def calculate_strategic_projections_checked (g : Grid)
    (target runs_scored balls_faced wickets_lost total_balls : ℤ) : Option Projections :=
  match pressure_index_checked g target runs_scored balls_faced wickets_lost total_balls with
  | none => none
  | some cpi =>
    let ph := get_phase (Int.fdiv balls_faced 6 + 1)
    match horizonItem_checked g cpi target runs_scored balls_faced wickets_lost total_balls ph 1,
      horizonItem_checked g cpi target runs_scored balls_faced wickets_lost total_balls ph 2,
      horizonItem_checked g cpi target runs_scored balls_faced wickets_lost total_balls ph 3 with
    | some h1, some h2, some h3 =>
        some
          { current_pi := cpi,
            phase := ph,
            horizons := fun label =>
              if label = "next_1_over" then h1
              else if label = "next_2_overs" then h2
              else if label = "next_3_overs" then h3
              else none }
    | _, _, _ => none

/-- The half-open interval of a zone in a phase's table, as a predicate on
finite pressure-index values (an absent upper bound is unbounded above). -/
def inZoneInterval (ph : Phase) (z : Zone) (x : ℝ) : Prop :=
  ((zoneLowQ ph z : ℚ) : ℝ) ≤ x ∧
    match zoneUpperQ ph z with
    | none => True
    | some q => x < ((q : ℚ) : ℝ)

theorem searchAux_eq_some_iff (p : ℕ → Prop) :
    ∀ (fuel s m : ℕ), searchAux p fuel s = some m ↔
      (s ≤ m ∧ m < s + fuel ∧ p m ∧ ∀ k, s ≤ k → k < m → ¬ p k) := by
  intro fuel
  induction fuel with
  | zero =>
      intro s m
      constructor
      · intro h; simp [searchAux] at h
      · rintro ⟨h1, h2, -, -⟩; omega
  | succ fuel ih =>
      intro s m
      by_cases hp : p s
      · simp only [searchAux, if_pos hp]
        constructor
        · intro h
          have hm : s = m := by injection h
          subst hm
          exact ⟨le_refl s, by omega, hp, fun k hk1 hk2 => absurd hk1 (by omega)⟩
        · rintro ⟨h1, h2, h3, h4⟩
          have hms : m = s := by
            by_contra hne
            exact h4 s (le_refl s) (lt_of_le_of_ne h1 (Ne.symm hne)) hp
          subst hms; rfl
      · simp only [searchAux, if_neg hp]
        rw [ih (s + 1) m]
        constructor
        · rintro ⟨h1, h2, h3, h4⟩
          refine ⟨by omega, by omega, h3, ?_⟩
          intro k hk1 hk2
          rcases eq_or_lt_of_le hk1 with rfl | hk
          · exact hp
          · exact h4 k (by omega) hk2
        · rintro ⟨h1, h2, h3, h4⟩
          have hsm : s ≠ m := by rintro rfl; exact hp h3
          exact ⟨by omega, by omega, h3, fun k hk1 hk2 => h4 k (by omega) hk2⟩

theorem searchAux_eq_none_iff (p : ℕ → Prop) :
    ∀ (fuel s : ℕ), searchAux p fuel s = none ↔ ∀ k, s ≤ k → k < s + fuel → ¬ p k := by
  intro fuel
  induction fuel with
  | zero =>
      intro s
      constructor
      · intro _ k h1 h2; omega
      · intro _; rfl
  | succ fuel ih =>
      intro s
      by_cases hp : p s
      · simp only [searchAux, if_pos hp]
        constructor
        · intro h; simp at h
        · intro h; exact absurd hp (h s (le_refl s) (by omega))
      · simp only [searchAux, if_neg hp]
        rw [ih (s + 1)]
        constructor
        · intro h k h1 h2
          rcases eq_or_lt_of_le h1 with rfl | hk
          · exact hp
          · exact h k (by omega) (by omega)
        · intro h k h1 h2
          exact h k (by omega) (by omega)

theorem zone_lookup (ph : Phase) (z : Zone) :
    (STRATEGIC_ZONES ph).lookup z = some (zoneLowQ ph z, zoneUpperQ ph z) := by
  cases ph <;> cases z <;> rfl

theorem ubound_none_pos : (0 : EReal) < ubound none :=
  lt_top_iff_ne_top.mpr (by simp [ubound])

theorem ubound_some_pos (q : ℚ) (h : (0 : ℚ) < q) : (0 : EReal) < ubound (some q) := by
  simp only [ubound]
  exact_mod_cast h

theorem zoneUpper_pos (ph : Phase) (z : Zone) : (0 : EReal) < zoneUpper ph z := by
  cases ph <;> cases z <;>
    first
    | exact ubound_none_pos
    | exact ubound_some_pos _ (by norm_num)

theorem pressure_index_target_met (g : Grid) (t r b w B : ℤ) (h : t ≤ r) :
    calculate_pressure_index g t r b w B = 0 := by
  rw [calculate_pressure_index, if_pos h]

theorem required_runs_wt_some_iff (g : Grid) (B : ℤ) (cpi : EReal) (t r b w ba : ℤ)
    (ph : Phase) (z : Zone) (n : ℤ) :
    required_runs_for_zone_with_total g B cpi t r b w ba ph z = some n ↔
      (0 ≤ n ∧ n ≤ max (t - r) 0 ∧
        projPredB g B t r b w ba (zoneUpper ph z) n ∧
        ∀ m : ℤ, 0 ≤ m → m < n → ¬ projPredB g B t r b w ba (zoneUpper ph z) m) := by
  simp only [required_runs_for_zone_with_total, zone_lookup ph z, projPredB, zoneUpper]
  by_cases hd : t - r ≤ 0
  · rw [if_pos hd]
    have hmax : max (t - r) 0 = 0 := max_eq_right hd
    have hp0 : calculate_pressure_index g t (r + 0) (b + ba) w B < ubound (zoneUpperQ ph z) := by
      rw [pressure_index_target_met g t (r + 0) (b + ba) w B (by omega)]
      exact zoneUpper_pos ph z
    constructor
    · intro h
      have hn : (0 : ℤ) = n := by injection h
      subst hn
      exact ⟨le_refl 0, by rw [hmax], hp0, fun m hm1 hm2 => absurd hm1 (by omega)⟩
    · rintro ⟨h1, h2, -, -⟩
      rw [hmax] at h2
      have : n = 0 := by omega
      subst this
      rfl
  · rw [if_neg hd]
    rw [Option.map_eq_some']
    have hmax : max (t - r) 0 = t - r := max_eq_left (by omega)
    rw [hmax]
    constructor
    · rintro ⟨k, hk, rfl⟩
      rw [searchAux_eq_some_iff] at hk
      obtain ⟨-, hk2, hk3, hk4⟩ := hk
      refine ⟨by omega, by omega, hk3, ?_⟩
      intro m hm1 hm2
      have hj : ((m.toNat : ℤ)) = m := Int.toNat_of_nonneg hm1
      have hm := hk4 m.toNat (Nat.zero_le _) (by omega)
      rw [hj] at hm
      exact hm
    · rintro ⟨h1, h2, h3, h4⟩
      refine ⟨n.toNat, ?_, by omega⟩
      rw [searchAux_eq_some_iff]
      refine ⟨Nat.zero_le _, by omega, ?_, ?_⟩
      · rw [Int.toNat_of_nonneg h1]
        exact h3
      · intro j hj1 hj2
        exact h4 (j : ℤ) (by omega) (by omega)

theorem required_runs_wt_none_iff (g : Grid) (B : ℤ) (cpi : EReal) (t r b w ba : ℤ)
    (ph : Phase) (z : Zone) :
    required_runs_for_zone_with_total g B cpi t r b w ba ph z = none ↔
      ∀ n : ℤ, 0 ≤ n → n ≤ max (t - r) 0 →
        ¬ projPredB g B t r b w ba (zoneUpper ph z) n := by
  simp only [required_runs_for_zone_with_total, zone_lookup ph z, projPredB, zoneUpper]
  by_cases hd : t - r ≤ 0
  · rw [if_pos hd]
    have hmax : max (t - r) 0 = 0 := max_eq_right hd
    have hp0 : calculate_pressure_index g t (r + 0) (b + ba) w B < ubound (zoneUpperQ ph z) := by
      rw [pressure_index_target_met g t (r + 0) (b + ba) w B (by omega)]
      exact zoneUpper_pos ph z
    constructor
    · intro h
      exact absurd h (by simp)
    · intro h
      exact absurd hp0 (h 0 (le_refl 0) (le_max_right _ _))
  · rw [if_neg hd]
    rw [Option.map_eq_none']
    rw [searchAux_eq_none_iff]
    have hmax : max (t - r) 0 = t - r := max_eq_left (by omega)
    rw [hmax]
    constructor
    · intro h n hn1 hn2
      have hj : ((n.toNat : ℤ)) = n := Int.toNat_of_nonneg hn1
      have hm := h n.toNat (Nat.zero_le _) (by omega)
      rw [hj] at hm
      exact hm
    · intro h k hk1 hk2
      exact h (k : ℤ) (by omega) (by omega)

theorem required_runs_eq_wt (g : Grid) (cpi : EReal) (t r b w ba : ℤ)
    (ph : Phase) (z : Zone) :
    calculate_required_runs_for_zone g cpi t r b w ba ph z =
      required_runs_for_zone_with_total g 120 cpi t r b w ba ph z := rfl

theorem required_runs_some_iff (g : Grid) (cpi : EReal) (t r b w ba : ℤ)
    (ph : Phase) (z : Zone) (n : ℤ) :
    calculate_required_runs_for_zone g cpi t r b w ba ph z = some n ↔
      (0 ≤ n ∧ n ≤ max (t - r) 0 ∧
        projPred g t r b w ba (zoneUpper ph z) n ∧
        ∀ m : ℤ, 0 ≤ m → m < n → ¬ projPred g t r b w ba (zoneUpper ph z) m) := by
  rw [required_runs_eq_wt]
  exact required_runs_wt_some_iff g 120 cpi t r b w ba ph z n

theorem required_runs_none_iff (g : Grid) (cpi : EReal) (t r b w ba : ℤ)
    (ph : Phase) (z : Zone) :
    calculate_required_runs_for_zone g cpi t r b w ba ph z = none ↔
      ∀ n : ℤ, 0 ≤ n → n ≤ max (t - r) 0 →
        ¬ projPred g t r b w ba (zoneUpper ph z) n := by
  rw [required_runs_eq_wt]
  exact required_runs_wt_none_iff g 120 cpi t r b w ba ph z

theorem pressure_index_nonneg (g : Grid) (t r b w B : ℤ) :
    0 ≤ calculate_pressure_index g t r b w B := by
  rw [calculate_pressure_index]
  by_cases h1 : t ≤ r
  · rw [if_pos h1]
  · rw [if_neg h1]
    by_cases h2 : 10 ≤ w
    · rw [if_pos h2]; exact le_top
    · rw [if_neg h2]
      by_cases h3 : calculate_initial_required_run_rate t B = 0
      · rw [if_pos h3]
      · rw [if_neg h3]
        cases hc : calculate_current_required_run_rate t r b B with
        | none =>
            by_cases h4 : 0 < calculate_initial_required_run_rate t B
            · simp only [if_pos h4]; exact le_top
            · simp only [if_neg h4]; exact le_refl 0
        | some c =>
            dsimp only
            exact_mod_cast le_max_left (0 : ℝ) _

theorem irrr_pos_of (t B : ℤ) (ht : 0 ≤ t) (hB : 0 < B)
    (h : calculate_initial_required_run_rate t B ≠ 0) :
    0 < calculate_initial_required_run_rate t B := by
  rw [calculate_initial_required_run_rate, if_neg (by omega : ¬ B = 0)] at h ⊢
  have hq : (0 : ℚ) ≤ ((t * 6 : ℤ) : ℚ) / ((B : ℤ) : ℚ) := by
    apply div_nonneg
    · exact_mod_cast mul_nonneg ht (by norm_num)
    · exact_mod_cast hB.le
  exact lt_of_le_of_ne hq (Ne.symm h)

theorem pressure_index_mono_runs (g : Grid) (t b w B r1 r2 : ℤ)
    (ht : 0 ≤ t) (hB : 0 < B) (hr : r1 ≤ r2) :
    calculate_pressure_index g t r2 b w B ≤ calculate_pressure_index g t r1 b w B := by
  by_cases h1 : t ≤ r1
  · rw [pressure_index_target_met g t r1 b w B h1,
      pressure_index_target_met g t r2 b w B (by omega)]
  · by_cases h2 : t ≤ r2
    · rw [pressure_index_target_met g t r2 b w B h2]
      exact pressure_index_nonneg g t r1 b w B
    · rw [calculate_pressure_index, calculate_pressure_index]
      rw [if_neg h1, if_neg h2]
      by_cases hw : 10 ≤ w
      · simp only [if_pos hw]
        exact le_refl _
      · simp only [if_neg hw]
        by_cases hirr : calculate_initial_required_run_rate t B = 0
        · simp only [if_pos hirr]
          exact le_refl _
        · simp only [if_neg hirr]
          have hirrpos : 0 < calculate_initial_required_run_rate t B :=
            irrr_pos_of t B ht hB hirr
          by_cases hbb : B - b ≤ 0
          · have hc1 : calculate_current_required_run_rate t r1 b B = none := by
              rw [calculate_current_required_run_rate, if_pos hbb,
                if_neg (by omega : ¬ t - r1 ≤ 0)]
            have hc2 : calculate_current_required_run_rate t r2 b B = none := by
              rw [calculate_current_required_run_rate, if_pos hbb,
                if_neg (by omega : ¬ t - r2 ≤ 0)]
            rw [hc1, hc2]
          · have hc1 : calculate_current_required_run_rate t r1 b B =
                some (((t - r1) * 6 : ℤ) / ((B - b : ℤ) : ℚ)) := by
              rw [calculate_current_required_run_rate, if_neg hbb]
            have hc2 : calculate_current_required_run_rate t r2 b B =
                some (((t - r2) * 6 : ℤ) / ((B - b : ℤ) : ℚ)) := by
              rw [calculate_current_required_run_rate, if_neg hbb]
            rw [hc1, hc2]
            rw [EReal.coe_le_coe_iff]
            apply max_le_max (le_refl (0 : ℝ))
            apply mul_le_mul_of_nonneg_right
            · apply mul_le_mul_of_nonneg_right _ (by norm_num : (0 : ℝ) ≤ 0.5)
              have hbq : (0 : ℚ) < ((B - b : ℤ) : ℚ) := by exact_mod_cast (by omega : (0:ℤ) < B - b)
              have hnum : (((t - r2) * 6 : ℤ) : ℚ) ≤ (((t - r1) * 6 : ℤ) : ℚ) := by
                exact_mod_cast (by omega : ((t - r2) * 6 : ℤ) ≤ (t - r1) * 6)
              have hcle : (((t - r2) * 6 : ℤ) : ℚ) / ((B - b : ℤ) : ℚ) /
                    calculate_initial_required_run_rate t B ≤
                  (((t - r1) * 6 : ℤ) : ℚ) / ((B - b : ℤ) : ℚ) /
                    calculate_initial_required_run_rate t B := by
                apply (div_le_div_right hirrpos).mpr
                exact (div_le_div_right hbq).mpr hnum
              exact_mod_cast hcle
            · positivity

theorem irrr_ne_zero_of (t B : ℤ) (ht : 0 < t) (hB : 0 < B) :
    calculate_initial_required_run_rate t B ≠ 0 := by
  rw [calculate_initial_required_run_rate, if_neg (by omega : ¬ B = 0)]
  have hpos : (0 : ℚ) < ((t * 6 : ℤ) : ℚ) / ((B : ℤ) : ℚ) := by
    apply div_pos
    · exact_mod_cast (by omega : (0 : ℤ) < t * 6)
    · exact_mod_cast hB
  exact ne_of_gt hpos

theorem pressure_index_top_iff (g : Grid) (t r b w B : ℤ)
    (ht : 0 ≤ t) (hr : 0 ≤ r) (hB : 0 < B) :
    calculate_pressure_index g t r b w B = ⊤ ↔ (r < t ∧ (10 ≤ w ∨ B - b ≤ 0)) := by
  by_cases h1 : t ≤ r
  · rw [pressure_index_target_met g t r b w B h1]
    constructor
    · intro h; exact absurd h (by simp)
    · rintro ⟨hlt, -⟩; omega
  · rw [calculate_pressure_index, if_neg h1]
    by_cases h2 : 10 ≤ w
    · rw [if_pos h2]
      exact ⟨fun _ => ⟨by omega, Or.inl h2⟩, fun _ => rfl⟩
    · rw [if_neg h2]
      have hirr : calculate_initial_required_run_rate t B ≠ 0 :=
        irrr_ne_zero_of t B (by omega) hB
      rw [if_neg hirr]
      have hirrpos := irrr_pos_of t B ht hB hirr
      by_cases hbb : B - b ≤ 0
      · have hc : calculate_current_required_run_rate t r b B = none := by
          rw [calculate_current_required_run_rate, if_pos hbb,
            if_neg (by omega : ¬ t - r ≤ 0)]
        rw [hc]
        dsimp only
        rw [if_pos hirrpos]
        exact ⟨fun _ => ⟨by omega, Or.inr hbb⟩, fun _ => rfl⟩
      · have hc : calculate_current_required_run_rate t r b B =
            some (((t - r) * 6 : ℤ) / ((B - b : ℤ) : ℚ)) := by
          rw [calculate_current_required_run_rate, if_neg hbb]
        rw [hc]
        dsimp only
        constructor
        · intro hcontra; exact absurd hcontra (EReal.coe_ne_top _)
        · rintro ⟨-, h3 | h4⟩
          · exact absurd h3 h2
          · exact absurd h4 hbb

theorem pressure_index_finite_of (g : Grid) (t r b w B : ℤ)
    (ht : 0 ≤ t) (hr : 0 ≤ r) (hB : 0 < B)
    (h : ¬ (r < t ∧ (10 ≤ w ∨ B - b ≤ 0))) :
    ∃ x : ℝ, calculate_pressure_index g t r b w B = (x : EReal) ∧ 0 ≤ x := by
  by_cases h1 : t ≤ r
  · refine ⟨0, ?_, le_refl 0⟩
    rw [pressure_index_target_met g t r b w B h1]
    norm_cast
  · push_neg at h
    obtain ⟨hw, hbb⟩ := h (by omega)
    rw [calculate_pressure_index, if_neg h1, if_neg (by omega : ¬ 10 ≤ w)]
    have hirr : calculate_initial_required_run_rate t B ≠ 0 :=
      irrr_ne_zero_of t B (by omega) hB
    rw [if_neg hirr]
    have hc : calculate_current_required_run_rate t r b B =
        some (((t - r) * 6 : ℤ) / ((B - b : ℤ) : ℚ)) := by
      rw [calculate_current_required_run_rate, if_neg (by omega : ¬ B - b ≤ 0)]
    rw [hc]
    dsimp only
    exact ⟨_, rfl, le_max_left 0 _⟩

theorem pyint_of_nonneg (o : ℚ) (h : 0 ≤ o) : pyint o = ⌊o⌋ := if_pos h

theorem pyint_nonpos_of_neg (o : ℚ) (h : o < 0) : pyint o ≤ 0 := by
  rw [pyint, if_neg (not_le.mpr h)]
  exact Int.ceil_le.mpr (by exact_mod_cast h.le)

theorem pyint_frac_bounds (o : ℚ) (h : 1 ≤ pyint o) :
    0 ≤ o - (pyint o : ℚ) ∧ o - (pyint o : ℚ) < 1 := by
  have ho : 0 ≤ o := by
    by_contra hneg
    have := pyint_nonpos_of_neg o (not_le.mp hneg)
    omega
  rw [pyint_of_nonneg o ho]
  constructor
  · exact sub_nonneg.mpr (Int.floor_le o)
  · have := Int.lt_floor_add_one o
    linarith

theorem grr_zero_of (g : Grid) (o : ℚ) (w : ℤ) (h : pyint o ≤ 0) :
    get_resources_remaining g o w = 0 := by
  simp only [get_resources_remaining]
  rw [if_pos (by omega : max 0 (min 20 (pyint o)) = 0)]

theorem grr_formula (g : Grid) (o : ℚ) (w : ℤ) (h : 1 ≤ pyint o) :
    get_resources_remaining g o w =
      gridVal g (min 20 (pyint o)) (max 0 (min 9 w)) +
        (o - (pyint o : ℚ)) *
          (gridVal g (min 20 (pyint o + 1)) (max 0 (min 9 w)) -
           gridVal g (min 20 (pyint o)) (max 0 (min 9 w))) := by
  simp only [get_resources_remaining]
  have h1 : max 0 (min 20 (pyint o)) = min 20 (pyint o) := by omega
  have h2 : max 0 (min 20 (pyint o + 1)) = min 20 (pyint o + 1) := by omega
  rw [h1, h2, if_neg (by omega : ¬ min 20 (pyint o) = 0)]
  by_cases hce : min 20 (pyint o + 1) = min 20 (pyint o)
  · rw [if_pos hce, hce]; ring
  · rw [if_neg hce]

theorem grr_nonneg (g : Grid)
    (Hnn : ∀ o w : ℤ, 0 ≤ o → o ≤ 20 → 0 ≤ w → w ≤ 9 → 0 ≤ gridVal g o w)
    (o : ℚ) (w : ℤ) :
    0 ≤ get_resources_remaining g o w := by
  by_cases h : pyint o ≤ 0
  · rw [grr_zero_of g o w h]
  · have h1 : 1 ≤ pyint o := by omega
    rw [grr_formula g o w h1]
    obtain ⟨hf0, hf1⟩ := pyint_frac_bounds o h1
    have ha := Hnn (min 20 (pyint o)) (max 0 (min 9 w))
      (by omega) (by omega) (by omega) (by omega)
    have hb := Hnn (min 20 (pyint o + 1)) (max 0 (min 9 w))
      (by omega) (by omega) (by omega) (by omega)
    nlinarith [mul_nonneg ha (by linarith : (0:ℚ) ≤ 1 - (o - (pyint o : ℚ))),
      mul_nonneg hf0 hb]

theorem grr_mono_overs (g : Grid)
    (Hnn : ∀ o w : ℤ, 0 ≤ o → o ≤ 20 → 0 ≤ w → w ≤ 9 → 0 ≤ gridVal g o w)
    (Hov : ∀ w o1 o2 : ℤ, 0 ≤ w → w ≤ 9 → 0 ≤ o1 → o1 ≤ o2 → o2 ≤ 20 →
      gridVal g o1 w ≤ gridVal g o2 w)
    (w : ℤ) (o1 o2 : ℚ) (ho1 : 0 ≤ o1) (h12 : o1 ≤ o2) :
    get_resources_remaining g o1 w ≤ get_resources_remaining g o2 w := by
  by_cases hz1 : pyint o1 ≤ 0
  · rw [grr_zero_of g o1 w hz1]
    exact grr_nonneg g Hnn o2 w
  · have h11 : 1 ≤ pyint o1 := by omega
    have ho2 : 0 ≤ o2 := le_trans ho1 h12
    have h12f : pyint o1 ≤ pyint o2 := by
      rw [pyint_of_nonneg o1 ho1, pyint_of_nonneg o2 ho2]
      exact Int.floor_le_floor h12
    have h21 : 1 ≤ pyint o2 := by omega
    rw [grr_formula g o1 w h11, grr_formula g o2 w h21]
    obtain ⟨ha1, hb1⟩ := pyint_frac_bounds o1 h11
    obtain ⟨ha2, hb2⟩ := pyint_frac_bounds o2 h21
    have hL1 : gridVal g (min 20 (pyint o1)) (max 0 (min 9 w)) ≤
        gridVal g (min 20 (pyint o1 + 1)) (max 0 (min 9 w)) :=
      Hov _ _ _ (by omega) (by omega) (by omega) (by omega) (by omega)
    have hL2 : gridVal g (min 20 (pyint o2)) (max 0 (min 9 w)) ≤
        gridVal g (min 20 (pyint o2 + 1)) (max 0 (min 9 w)) :=
      Hov _ _ _ (by omega) (by omega) (by omega) (by omega) (by omega)
    by_cases heq : pyint o1 = pyint o2
    · have e1 : min 20 (pyint o1) = min 20 (pyint o2) := by omega
      have e2 : min 20 (pyint o1 + 1) = min 20 (pyint o2 + 1) := by omega
      rw [e1, e2]
      have hfr : o1 - (pyint o1 : ℚ) ≤ o2 - (pyint o2 : ℚ) := by
        rw [heq] at h12f ⊢
        linarith
      nlinarith [mul_le_mul_of_nonneg_right hfr (sub_nonneg.mpr hL2)]
    · have hlt : pyint o1 < pyint o2 := by omega
      have key1 : gridVal g (min 20 (pyint o1)) (max 0 (min 9 w)) +
            (o1 - (pyint o1 : ℚ)) *
              (gridVal g (min 20 (pyint o1 + 1)) (max 0 (min 9 w)) -
               gridVal g (min 20 (pyint o1)) (max 0 (min 9 w))) ≤
          gridVal g (min 20 (pyint o1 + 1)) (max 0 (min 9 w)) := by
        nlinarith [mul_nonneg (by linarith : (0:ℚ) ≤ 1 - (o1 - (pyint o1 : ℚ)))
          (sub_nonneg.mpr hL1)]
      have key2 : gridVal g (min 20 (pyint o2)) (max 0 (min 9 w)) ≤
          gridVal g (min 20 (pyint o2)) (max 0 (min 9 w)) +
            (o2 - (pyint o2 : ℚ)) *
              (gridVal g (min 20 (pyint o2 + 1)) (max 0 (min 9 w)) -
               gridVal g (min 20 (pyint o2)) (max 0 (min 9 w))) := by
        nlinarith [mul_nonneg ha2 (sub_nonneg.mpr hL2)]
      have hmid : gridVal g (min 20 (pyint o1 + 1)) (max 0 (min 9 w)) ≤
          gridVal g (min 20 (pyint o2)) (max 0 (min 9 w)) :=
        Hov _ _ _ (by omega) (by omega) (by omega) (by omega) (by omega)
      linarith

theorem grr_antitone_wickets (g : Grid)
    (Hwk : ∀ o w1 w2 : ℤ, 0 ≤ o → o ≤ 20 → 0 ≤ w1 → w1 ≤ w2 → w2 ≤ 9 →
      gridVal g o w2 ≤ gridVal g o w1)
    (o : ℚ) (w1 w2 : ℤ) (h : w1 ≤ w2) :
    get_resources_remaining g o w2 ≤ get_resources_remaining g o w1 := by
  by_cases hz : pyint o ≤ 0
  · rw [grr_zero_of g o w1 hz, grr_zero_of g o w2 hz]
  · have h1 : 1 ≤ pyint o := by omega
    rw [grr_formula g o w1 h1, grr_formula g o w2 h1]
    obtain ⟨ha, hb⟩ := pyint_frac_bounds o h1
    have k1 : gridVal g (min 20 (pyint o)) (max 0 (min 9 w2)) ≤
        gridVal g (min 20 (pyint o)) (max 0 (min 9 w1)) :=
      Hwk _ _ _ (by omega) (by omega) (by omega) (by omega) (by omega)
    have k2 : gridVal g (min 20 (pyint o + 1)) (max 0 (min 9 w2)) ≤
        gridVal g (min 20 (pyint o + 1)) (max 0 (min 9 w1)) :=
      Hwk _ _ _ (by omega) (by omega) (by omega) (by omega) (by omega)
    nlinarith [mul_nonneg (by linarith : (0:ℚ) ≤ 1 - (o - (pyint o : ℚ)))
      (sub_nonneg.mpr k1), mul_nonneg ha (sub_nonneg.mpr k2)]

theorem resources_remaining_eq_spec (g : Grid) (o : ℚ) (w : ℤ) :
    get_resources_remaining g o w = resources_remaining_spec g o w := by
  by_cases ho : 0 ≤ o
  · simp only [get_resources_remaining, resources_remaining_spec, pyint_of_nonneg o ho]
    by_cases hze : max 0 (min 20 ⌊o⌋) = 0
    · rw [if_pos hze, if_pos hze]
    · rw [if_neg hze, if_neg hze]
      by_cases hce : max 0 (min 20 (⌊o⌋ + 1)) = max 0 (min 20 ⌊o⌋)
      · rw [if_pos hce, hce]
        ring
      · rw [if_neg hce]
  · have hneg : o < 0 := not_le.mp ho
    have hp := pyint_nonpos_of_neg o hneg
    have hf : ⌊o⌋ ≤ 0 := by
      have := Int.floor_le_ceil o
      rw [pyint, if_neg ho] at hp
      omega
    simp only [get_resources_remaining, resources_remaining_spec]
    rw [if_pos (by omega : max 0 (min 20 (pyint o)) = 0),
      if_pos (by omega : max 0 (min 20 ⌊o⌋) = 0)]

theorem resources_gSyn_mid : get_resources_remaining gSyn (3/2) 0 = 75 := by
  have hp : pyint (3/2 : ℚ) = 1 := by
    rw [pyint_of_nonneg _ (by norm_num)]
    norm_num [Int.floor_eq_iff]
  rw [grr_formula gSyn (3/2) 0 (by rw [hp])]
  rw [hp]
  norm_num [gridVal, gSyn]

theorem resources_gSyn_zero : get_resources_remaining gSyn 0 1 = 0 := by
  apply grr_zero_of
  rw [pyint_of_nonneg _ (le_refl 0)]
  norm_num

theorem gridVal_gFull (o w : ℤ) (h1 : 1 ≤ o) (h2 : o ≤ 20) (h3 : 0 ≤ w) (h4 : w ≤ 9) :
    gridVal gFull o w = 100 := by
  simp only [gridVal, gFull]
  rw [if_pos ⟨h1, h2, h3, h4⟩]
  rfl

theorem grr_gFull (q : ℚ) (w : ℤ) (h : 1 ≤ q) :
    get_resources_remaining gFull q w = 100 := by
  have h0 : (0 : ℚ) ≤ q := le_trans zero_le_one h
  have h1f : 1 ≤ pyint q := by
    rw [pyint_of_nonneg q h0]
    exact Int.le_floor.mpr (by exact_mod_cast h)
  rw [grr_formula gFull q w h1f]
  rw [gridVal_gFull _ _ (by omega) (by omega) (by omega) (by omega),
    gridVal_gFull _ _ (by omega) (by omega) (by omega) (by omega)]
  ring

theorem ru_gFull (b w B : ℤ) (h : b + 6 ≤ B) :
    get_resources_used gFull b w B = 0 := by
  rw [get_resources_used]
  rw [grr_gFull _ w ?h16]
  · norm_num
  case h16 =>
    rw [le_div_iff (by norm_num : (0:ℚ) < 6)]
    exact_mod_cast (by omega : (6 : ℤ) ≤ B - b)

theorem pi_gFull_eval (t r b B : ℤ) (ht : 0 < t) (hb : 0 ≤ b) (hb6 : b + 6 ≤ B) :
    calculate_pressure_index gFull t r b 0 B =
      (((max 0 ((((t - r) * B : ℤ) : ℚ) / (((t * (B - b)) : ℤ) : ℚ)) : ℚ) : ℝ) : EReal) := by
  have hB0 : (0 : ℤ) < B := by omega
  have hden : (0 : ℤ) < t * (B - b) := mul_pos ht (by omega)
  have hdenq : (0 : ℚ) < ((t * (B - b) : ℤ) : ℚ) := by exact_mod_cast hden
  by_cases h1 : t ≤ r
  · rw [pressure_index_target_met gFull t r b 0 B h1]
    have hnum : (((t - r) * B : ℤ) : ℚ) ≤ 0 := by
      exact_mod_cast (by nlinarith : ((t - r) * B : ℤ) ≤ 0)
    have hQ : (((t - r) * B : ℤ) : ℚ) / ((t * (B - b) : ℤ) : ℚ) ≤ 0 :=
      div_nonpos_of_nonpos_of_nonneg hnum hdenq.le
    rw [max_eq_left hQ]
    norm_num
  · rw [calculate_pressure_index, if_neg h1, if_neg (by norm_num : ¬ (10:ℤ) ≤ 0)]
    rw [if_neg (irrr_ne_zero_of t B ht hB0)]
    have hc : calculate_current_required_run_rate t r b B =
        some (((t - r) * 6 : ℤ) / ((B - b : ℤ) : ℚ)) := by
      rw [calculate_current_required_run_rate, if_neg (by omega : ¬ B - b ≤ 0)]
    rw [hc]
    dsimp only
    rw [ru_gFull b 0 B hb6]
    rw [show calculate_wicket_weight_sum 0 = 0 from by
      rw [calculate_wicket_weight_sum, if_pos (le_refl (0:ℤ))]]
    rw [calculate_initial_required_run_rate, if_neg (by omega : ¬ B = 0)]
    have hci : (((t - r) * 6 : ℤ) : ℚ) / ((B - b : ℤ) : ℚ) / (((t * 6 : ℤ) : ℚ) / ((B : ℤ) : ℚ)) =
        (((t - r) * B : ℤ) : ℚ) / ((t * (B - b) : ℤ) : ℚ) := by
      have hbmb : (0 : ℚ) < ((B - b : ℤ) : ℚ) := by exact_mod_cast (by omega : (0:ℤ) < B - b)
      have ht6 : (0 : ℚ) < ((t * 6 : ℤ) : ℚ) := by exact_mod_cast (by omega : (0:ℤ) < t * 6)
      rw [div_div_eq_mul_div, div_mul_eq_mul_div, div_div,
        div_eq_div_iff (by positivity) (ne_of_gt hdenq)]
      push_cast
      ring
    rw [hci]
    push_cast [Rat.cast_max]
    norm_num [Real.exp_zero]
    congr 1
    ring

theorem pi_gFull_lt_iff (t r b B : ℤ) (ht : 0 < t) (hb : 0 ≤ b) (hb6 : b + 6 ≤ B)
    (q : ℚ) (hq : 0 < q) :
    (calculate_pressure_index gFull t r b 0 B < ((q : ℝ) : EReal)) ↔
      (((t - r) * B : ℤ) : ℚ) < q * ((t * (B - b) : ℤ) : ℚ) := by
  rw [pi_gFull_eval t r b B ht hb hb6]
  rw [EReal.coe_lt_coe_iff, Rat.cast_lt, max_lt_iff]
  have hdenq : (0 : ℚ) < ((t * (B - b) : ℤ) : ℚ) := by
    exact_mod_cast mul_pos ht (by omega : (0:ℤ) < B - b)
  rw [div_lt_iff hdenq]
  constructor
  · rintro ⟨-, h⟩; exact h
  · intro h; exact ⟨hq, h⟩

theorem pred_pp_target_gFull (n : ℤ) :
    projPred gFull 120 30 30 0 6 (zoneUpper Phase.powerplay Zone.target) n ↔ 48 < n := by
  simp only [projPred, projPredB]
  rw [show zoneUpper Phase.powerplay Zone.target = (((1/2 : ℚ) : ℝ) : EReal) from rfl]
  rw [pi_gFull_lt_iff 120 (30 + n) (30 + 6) 120 (by norm_num) (by norm_num) (by norm_num)
    (1/2) (by norm_num)]
  push_cast
  constructor
  · intro h
    have hq2 : (48 : ℚ) < (n : ℚ) := by linarith
    exact_mod_cast hq2
  · intro h
    have hq2 : (48 : ℚ) < (n : ℚ) := by exact_mod_cast h
    linarith

theorem pred_mid_target_gFull (n : ℤ) :
    projPred gFull 120 30 30 0 6 (zoneUpper Phase.middle_overs Zone.target) n ↔ 6 < n := by
  simp only [projPred, projPredB]
  rw [show zoneUpper Phase.middle_overs Zone.target = (((1 : ℚ) : ℝ) : EReal) from rfl]
  rw [pi_gFull_lt_iff 120 (30 + n) (30 + 6) 120 (by norm_num) (by norm_num) (by norm_num)
    1 (by norm_num)]
  push_cast
  constructor
  · intro h
    have hq2 : (6 : ℚ) < (n : ℚ) := by linarith
    exact_mod_cast hq2
  · intro h
    have hq2 : (6 : ℚ) < (n : ℚ) := by exact_mod_cast h
    linarith

theorem pred_pp_target_gFull_240 (n : ℤ) :
    projPredB gFull 240 120 30 30 0 6 (zoneUpper Phase.powerplay Zone.target) n ↔ 39 < n := by
  simp only [projPredB]
  rw [show zoneUpper Phase.powerplay Zone.target = (((1/2 : ℚ) : ℝ) : EReal) from rfl]
  rw [pi_gFull_lt_iff 120 (30 + n) (30 + 6) 240 (by norm_num) (by norm_num) (by norm_num)
    (1/2) (by norm_num)]
  push_cast
  constructor
  · intro h
    have hq2 : (39 : ℚ) < (n : ℚ) := by linarith
    exact_mod_cast hq2
  · intro h
    have hq2 : (39 : ℚ) < (n : ℚ) := by exact_mod_cast h
    linarith

theorem search_gFull_pp (cpi : EReal) :
    calculate_required_runs_for_zone gFull cpi 120 30 30 0 6 Phase.powerplay Zone.target =
      some 49 := by
  rw [required_runs_some_iff]
  refine ⟨by norm_num, by omega, ?_, ?_⟩
  · exact (pred_pp_target_gFull 49).mpr (by norm_num)
  · intro m hm1 hm2
    rw [pred_pp_target_gFull m]
    omega

theorem search_gFull_mid (cpi : EReal) :
    calculate_required_runs_for_zone gFull cpi 120 30 30 0 6 Phase.middle_overs Zone.target =
      some 7 := by
  rw [required_runs_some_iff]
  refine ⟨by norm_num, by omega, ?_, ?_⟩
  · exact (pred_mid_target_gFull 7).mpr (by norm_num)
  · intro m hm1 hm2
    rw [pred_mid_target_gFull m]
    omega

theorem search_gFull_240 (cpi : EReal) :
    required_runs_for_zone_with_total gFull 240 cpi 120 30 30 0 6 Phase.powerplay Zone.target =
      some 40 := by
  rw [required_runs_wt_some_iff]
  refine ⟨by norm_num, by omega, ?_, ?_⟩
  · exact (pred_pp_target_gFull_240 40).mpr (by norm_num)
  · intro m hm1 hm2
    rw [pred_pp_target_gFull_240 m]
    omega

theorem mkZoneProjection_runs (X : Option ℤ) (ba : ℤ) :
    (mkZoneProjection X ba).runs = X := by
  cases X <;> rfl

theorem horizonItem_zoneRuns (g : Grid) (cpi : EReal) (t r b w B : ℤ) (ph : Phase)
    (oa : ℤ) (z : Zone) (hz : z ≠ Zone.avoid) :
    ((horizonItem g cpi t r b w B ph oa).bind fun hd => (hd.zones z).map ZoneProjection.runs) =
      (if (if B < b + oa * 6 then B - b else oa * 6) ≤ 0 then none
       else some (if B < b + oa * 6 then B - b else oa * 6)).map
        (fun ba => calculate_required_runs_for_zone g cpi t r b w ba ph z) := by
  simp only [horizonItem]
  by_cases hba : (if B < b + oa * 6 then B - b else oa * 6) ≤ 0
  · rw [if_pos hba, if_pos hba]
    rfl
  · rw [if_neg hba, if_neg hba]
    dsimp only [Option.bind, zonesFun]
    rw [if_neg hz]
    dsimp only [Option.map]
    rw [mkZoneProjection_runs]

theorem strategic_projections_runs (g : Grid) (t r b w B : ℤ) (label : String) (z : Zone)
    (hz : z ≠ Zone.avoid) :
    horizonZoneRuns (calculate_strategic_projections g t r b w B) label z =
      (horizonBalls b B label).map (fun ba =>
        calculate_required_runs_for_zone g
          (calculate_pressure_index g t r b w B) t r b w ba
          (get_phase (Int.fdiv b 6 + 1)) z) := by
  simp only [horizonZoneRuns, calculate_strategic_projections]
  by_cases h1 : label = "next_1_over"
  · rw [if_pos h1, horizonItem_zoneRuns g _ t r b w B _ 1 z hz,
      horizonBalls, if_pos (Or.inl h1), if_pos h1]
  · rw [if_neg h1]
    by_cases h2 : label = "next_2_overs"
    · rw [if_pos h2, horizonItem_zoneRuns g _ t r b w B _ 2 z hz,
        horizonBalls, if_pos (Or.inr (Or.inl h2)), if_neg h1, if_pos h2]
    · rw [if_neg h2]
      by_cases h3 : label = "next_3_overs"
      · rw [if_pos h3, horizonItem_zoneRuns g _ t r b w B _ 3 z hz,
          horizonBalls, if_pos (Or.inr (Or.inr h3)), if_neg h1, if_neg h2]
      · rw [if_neg h3, horizonBalls,
          if_neg (by simp [h1, h2, h3] : ¬ (label = "next_1_over" ∨ label = "next_2_overs" ∨ label = "next_3_overs"))]
        rfl

theorem strategic_projections_phase (g : Grid) (t r b w B : ℤ) :
    (calculate_strategic_projections g t r b w B).phase =
      get_phase (Int.fdiv b 6 + 1) := rfl

theorem strategic_projections_current_pi (g : Grid) (t r b w B : ℤ) :
    (calculate_strategic_projections g t r b w B).current_pi =
      calculate_pressure_index g t r b w B := rfl

theorem proj_gFull_next1_target :
    horizonZoneRuns (calculate_strategic_projections gFull 120 30 30 0 120)
      "next_1_over" Zone.target = some (some 49) := by
  rw [strategic_projections_runs gFull 120 30 30 0 120 "next_1_over" Zone.target (by decide)]
  rw [horizonBalls, if_pos (Or.inl rfl), if_pos rfl]
  simp only [show get_phase (Int.fdiv 30 6 + 1) = Phase.powerplay from by decide]
  norm_num
  exact search_gFull_pp _

theorem findZone_cond_iff (x : ℝ) (lo q : ℚ) :
    ((((lo : ℚ) : ℝ) : EReal) ≤ ((x : ℝ) : EReal) ∧ ((x : ℝ) : EReal) < ubound (some q)) ↔
      (((lo : ℚ) : ℝ) ≤ x ∧ x < ((q : ℚ) : ℝ)) := by
  rw [EReal.coe_le_coe_iff, show ubound (some q) = (((q : ℚ) : ℝ) : EReal) from rfl,
    EReal.coe_lt_coe_iff]

theorem findZone_cond_top_iff (x : ℝ) (lo : ℚ) :
    ((((lo : ℚ) : ℝ) : EReal) ≤ ((x : ℝ) : EReal) ∧ ((x : ℝ) : EReal) < ubound none) ↔
      (((lo : ℚ) : ℝ) ≤ x) := by
  rw [EReal.coe_le_coe_iff, show ubound none = (⊤ : EReal) from rfl]
  simp [EReal.coe_lt_top]

theorem get_zone_pp (x : ℝ) (hx : 0 ≤ x) :
    get_zone_for_pi (x : EReal) Phase.powerplay =
      if x < 1/2 then Zone.target else if x < 1 then Zone.acceptable
      else if x < 3/2 then Zone.risky else Zone.avoid := by
  simp only [get_zone_for_pi, STRATEGIC_ZONES, findZone, findZone_cond_iff, findZone_cond_top_iff]
  push_cast
  by_cases h1 : x < 1/2
  · rw [if_pos ⟨hx, h1⟩, if_pos h1]
  · rw [if_neg (fun hc => h1 hc.2), if_neg h1]
    by_cases h2 : x < 1
    · rw [if_pos ⟨by linarith, h2⟩, if_pos h2]
    · rw [if_neg (fun hc => h2 hc.2), if_neg h2]
      by_cases h3 : x < 3/2
      · rw [if_pos ⟨by linarith, h3⟩, if_pos h3]
      · rw [if_neg (fun hc => h3 hc.2), if_neg h3, if_pos (by linarith)]

theorem get_zone_mid (x : ℝ) (hx : 0 ≤ x) :
    get_zone_for_pi (x : EReal) Phase.middle_overs =
      if x < 1 then Zone.target else if x < 3/2 then Zone.acceptable
      else if x < 5/2 then Zone.risky else Zone.avoid := by
  simp only [get_zone_for_pi, STRATEGIC_ZONES, findZone, findZone_cond_iff, findZone_cond_top_iff]
  push_cast
  by_cases h1 : x < 1
  · rw [if_pos ⟨hx, h1⟩, if_pos h1]
  · rw [if_neg (fun hc => h1 hc.2), if_neg h1]
    by_cases h2 : x < 3/2
    · rw [if_pos ⟨by linarith, h2⟩, if_pos h2]
    · rw [if_neg (fun hc => h2 hc.2), if_neg h2]
      by_cases h3 : x < 5/2
      · rw [if_pos ⟨by linarith, h3⟩, if_pos h3]
      · rw [if_neg (fun hc => h3 hc.2), if_neg h3, if_pos (by linarith)]

theorem get_zone_death (x : ℝ) (hx : 0 ≤ x) :
    get_zone_for_pi (x : EReal) Phase.death_overs =
      if x < 1 then Zone.target else if x < 5/2 then Zone.acceptable
      else if x < 7/2 then Zone.risky else Zone.avoid := by
  simp only [get_zone_for_pi, STRATEGIC_ZONES, findZone, findZone_cond_iff, findZone_cond_top_iff]
  push_cast
  by_cases h1 : x < 1
  · rw [if_pos ⟨hx, h1⟩, if_pos h1]
  · rw [if_neg (fun hc => h1 hc.2), if_neg h1]
    by_cases h2 : x < 5/2
    · rw [if_pos ⟨by linarith, h2⟩, if_pos h2]
    · rw [if_neg (fun hc => h2 hc.2), if_neg h2]
      by_cases h3 : x < 7/2
      · rw [if_pos ⟨by linarith, h3⟩, if_pos h3]
      · rw [if_neg (fun hc => h3 hc.2), if_neg h3, if_pos (by linarith)]

theorem zone_part_pp (x : ℝ) (hx : 0 ≤ x) :
    inZoneInterval Phase.powerplay (get_zone_for_pi (x : EReal) Phase.powerplay) x ∧
      ∀ z, inZoneInterval Phase.powerplay z x →
        z = get_zone_for_pi (x : EReal) Phase.powerplay := by
  rw [get_zone_pp x hx]
  constructor
  · split_ifs with h1 h2 h3 <;>
      simp only [inZoneInterval, zoneLowQ, zoneUpperQ] <;> push_cast <;>
      exact ⟨by linarith, by first | trivial | linarith⟩
  · intro z hz
    cases z <;> simp only [inZoneInterval, zoneLowQ, zoneUpperQ] at hz <;> push_cast at hz <;>
      obtain ⟨hz1, hz2⟩ := hz <;> split_ifs with h1 h2 h3 <;>
      first | rfl | (exfalso; linarith)

theorem zone_part_mid (x : ℝ) (hx : 0 ≤ x) :
    inZoneInterval Phase.middle_overs (get_zone_for_pi (x : EReal) Phase.middle_overs) x ∧
      ∀ z, inZoneInterval Phase.middle_overs z x →
        z = get_zone_for_pi (x : EReal) Phase.middle_overs := by
  rw [get_zone_mid x hx]
  constructor
  · split_ifs with h1 h2 h3 <;>
      simp only [inZoneInterval, zoneLowQ, zoneUpperQ] <;> push_cast <;>
      exact ⟨by linarith, by first | trivial | linarith⟩
  · intro z hz
    cases z <;> simp only [inZoneInterval, zoneLowQ, zoneUpperQ] at hz <;> push_cast at hz <;>
      obtain ⟨hz1, hz2⟩ := hz <;> split_ifs with h1 h2 h3 <;>
      first | rfl | (exfalso; linarith)

theorem zone_part_death (x : ℝ) (hx : 0 ≤ x) :
    inZoneInterval Phase.death_overs (get_zone_for_pi (x : EReal) Phase.death_overs) x ∧
      ∀ z, inZoneInterval Phase.death_overs z x →
        z = get_zone_for_pi (x : EReal) Phase.death_overs := by
  rw [get_zone_death x hx]
  constructor
  · split_ifs with h1 h2 h3 <;>
      simp only [inZoneInterval, zoneLowQ, zoneUpperQ] <;> push_cast <;>
      exact ⟨by linarith, by first | trivial | linarith⟩
  · intro z hz
    cases z <;> simp only [inZoneInterval, zoneLowQ, zoneUpperQ] at hz <;> push_cast at hz <;>
      obtain ⟨hz1, hz2⟩ := hz <;> split_ifs with h1 h2 h3 <;>
      first | rfl | (exfalso; linarith)

theorem get_zone_top (ph : Phase) : get_zone_for_pi ⊤ ph = Zone.avoid := by
  cases ph <;>
    simp only [get_zone_for_pi, STRATEGIC_ZONES, findZone] <;>
    rw [if_neg (fun hc => not_top_lt hc.2), if_neg (fun hc => not_top_lt hc.2),
      if_neg (fun hc => not_top_lt hc.2), if_neg (fun hc => not_top_lt hc.2)]

theorem divq_of_ne (a b : ℚ) (h : b ≠ 0) : divq a b = some (a / b) := by
  rw [divq, if_neg h]

theorem irrr_checked_eq (t B : ℤ) :
    irrr_checked t B = some (calculate_initial_required_run_rate t B) := by
  rw [irrr_checked, calculate_initial_required_run_rate]
  by_cases hB : B = 0
  · rw [if_pos hB, if_pos hB]
  · rw [if_neg hB, if_neg hB, divq,
      if_neg (by exact_mod_cast hB : ¬ ((B : ℤ) : ℚ) = 0)]

theorem crrr_checked_eq (t r b B : ℤ) :
    crrr_checked t r b B = some (calculate_current_required_run_rate t r b B) := by
  rw [crrr_checked, calculate_current_required_run_rate]
  by_cases h1 : B - b ≤ 0
  · rw [if_pos h1, if_pos h1]
    by_cases h2 : t - r ≤ 0
    · rw [if_pos h2, if_pos h2]
    · rw [if_neg h2, if_neg h2]
  · rw [if_neg h1, if_neg h1, divq,
      if_neg (by exact_mod_cast (by omega : ¬ (B - b : ℤ) = 0) : ¬ ((B - b : ℤ) : ℚ) = 0)]
    rfl

theorem resources_used_checked_eq (g : Grid) (b w B : ℤ) :
    resources_used_checked g b w B = some (get_resources_used g b w B) := by
  rw [resources_used_checked, divq, if_neg (by norm_num : ¬ (6 : ℚ) = 0)]
  rfl

theorem pressure_index_checked_eq (g : Grid) (t r b w B : ℤ) :
    pressure_index_checked g t r b w B = some (calculate_pressure_index g t r b w B) := by
  rw [pressure_index_checked, calculate_pressure_index]
  by_cases h1 : t ≤ r
  · rw [if_pos h1, if_pos h1]
  · rw [if_neg h1, if_neg h1]
    by_cases h2 : 10 ≤ w
    · rw [if_pos h2, if_pos h2]
    · rw [if_neg h2, if_neg h2]
      rw [irrr_checked_eq]
      dsimp only
      by_cases h3 : calculate_initial_required_run_rate t B = 0
      · rw [if_pos h3, if_pos h3]
      · rw [if_neg h3, if_neg h3]
        rw [crrr_checked_eq]
        cases hc : calculate_current_required_run_rate t r b B with
        | none => rfl
        | some c =>
            dsimp only
            rw [divq_of_ne _ _ h3]
            dsimp only
            rw [resources_used_checked_eq]
            dsimp only
            rw [divq_of_ne _ _ (by norm_num : (100 : ℚ) ≠ 0),
              divq_of_ne _ _ (by norm_num : (11 : ℚ) ≠ 0)]

theorem searchAuxChecked_eq (f : ℕ → Option EReal) (v : ℕ → EReal) (bound : EReal)
    (hf : ∀ n, f n = some (v n)) :
    ∀ fuel s, searchAuxChecked f bound fuel s =
      some (searchAux (fun n => v n < bound) fuel s) := by
  intro fuel
  induction fuel with
  | zero => intro s; rfl
  | succ fuel ih =>
      intro s
      simp only [searchAuxChecked, searchAux]
      rw [hf s]
      dsimp only
      by_cases h : v s < bound
      · rw [if_pos h, if_pos h]
      · rw [if_neg h, if_neg h, ih]

theorem required_runs_checked_eq (g : Grid) (cpi : EReal) (t r b w ba : ℤ)
    (ph : Phase) (z : Zone) :
    required_runs_checked g cpi t r b w ba ph z =
      some (calculate_required_runs_for_zone g cpi t r b w ba ph z) := by
  rw [required_runs_checked, calculate_required_runs_for_zone, zone_lookup ph z]
  dsimp only
  by_cases hd : t - r ≤ 0
  · rw [if_pos hd, if_pos hd]
  · rw [if_neg hd, if_neg hd]
    rw [searchAuxChecked_eq _
      (fun n => calculate_pressure_index g t (r + (n : ℤ)) (b + ba) w 120) _
      (fun n => pressure_index_checked_eq g t (r + (n : ℤ)) (b + ba) w 120)]
    rfl

theorem mkZoneProjection_checked_eq (X : Option ℤ) (ba : ℤ) :
    mkZoneProjection_checked X ba = some (mkZoneProjection X ba) := by
  cases X with
  | none => rfl
  | some n =>
      by_cases hba : 0 < ba
      · simp only [mkZoneProjection_checked, mkZoneProjection, if_pos hba]
        rw [divq_of_ne _ _ (by exact_mod_cast (by omega : ¬ ba = 0) : ((ba : ℤ) : ℚ) ≠ 0)]
      · simp only [mkZoneProjection_checked, mkZoneProjection, if_neg hba]

theorem horizonItem_checked_eq (g : Grid) (cpi : EReal) (t r b w B : ℤ)
    (ph : Phase) (oa : ℤ) :
    horizonItem_checked g cpi t r b w B ph oa =
      some (horizonItem g cpi t r b w B ph oa) := by
  simp only [horizonItem_checked, horizonItem]
  by_cases hba : (if B < b + oa * 6 then B - b else oa * 6) ≤ 0
  · rw [if_pos hba, if_pos hba]
  · rw [if_neg hba, if_neg hba]
    rw [required_runs_checked_eq, required_runs_checked_eq, required_runs_checked_eq]
    dsimp only
    rw [mkZoneProjection_checked_eq, mkZoneProjection_checked_eq, mkZoneProjection_checked_eq]
    dsimp only
    have hz : (fun z =>
        if z = Zone.avoid then none
        else if z = Zone.target then
          some (mkZoneProjection
            (calculate_required_runs_for_zone g cpi t r b w
              (if B < b + oa * 6 then B - b else oa * 6) ph Zone.target)
            (if B < b + oa * 6 then B - b else oa * 6))
        else if z = Zone.acceptable then
          some (mkZoneProjection
            (calculate_required_runs_for_zone g cpi t r b w
              (if B < b + oa * 6 then B - b else oa * 6) ph Zone.acceptable)
            (if B < b + oa * 6 then B - b else oa * 6))
        else
          some (mkZoneProjection
            (calculate_required_runs_for_zone g cpi t r b w
              (if B < b + oa * 6 then B - b else oa * 6) ph Zone.risky)
            (if B < b + oa * 6 then B - b else oa * 6))) =
        zonesFun g cpi t r b w (if B < b + oa * 6 then B - b else oa * 6) ph := by
      funext z
      cases z <;> rfl
    rw [hz]

theorem strategic_projections_checked_eq (g : Grid) (t r b w B : ℤ) :
    calculate_strategic_projections_checked g t r b w B =
      some (calculate_strategic_projections g t r b w B) := by
  rw [calculate_strategic_projections_checked, pressure_index_checked_eq]
  dsimp only
  rw [horizonItem_checked_eq, horizonItem_checked_eq, horizonItem_checked_eq]
  rfl

/-- C1: for every in-invariant state, positive horizon and searched zone,
`calculate_required_runs_for_zone` returns exactly the first value of an
exhaustive scan of `runs_needed ∈ [0, target - runs_scored]` whose projected
pressure index (recomputed with the engine default of 120 balls) is strictly
below the zone's upper threshold, and `none` when no value in the range
qualifies; a `none` search result is reported as `achievable = false` with
`runs = null`. -/
theorem claim_c1 (g : Grid) (cpi : EReal) (t r b w ba : ℤ) (ph : Phase) (z : Zone)
    (ht : 0 ≤ t) (hr : 0 ≤ r) (hb : 0 ≤ b) (hw0 : 0 ≤ w) (hw : w ≤ 10) (hba : 0 < ba)
    (hz : z = Zone.target ∨ z = Zone.acceptable ∨ z = Zone.risky) :
    (∀ n : ℤ, calculate_required_runs_for_zone g cpi t r b w ba ph z = some n ↔
        (0 ≤ n ∧ n ≤ max (t - r) 0 ∧ projPred g t r b w ba (zoneUpper ph z) n ∧
          ∀ m : ℤ, 0 ≤ m → m < n → ¬ projPred g t r b w ba (zoneUpper ph z) m))
    ∧ (calculate_required_runs_for_zone g cpi t r b w ba ph z = none ↔
        ∀ n : ℤ, 0 ≤ n → n ≤ max (t - r) 0 → ¬ projPred g t r b w ba (zoneUpper ph z) n)
    ∧ (∀ ba2 : ℤ, mkZoneProjection none ba2 = ⟨none, none, false⟩) :=
  ⟨fun n => required_runs_some_iff g cpi t r b w ba ph z n,
   required_runs_none_iff g cpi t r b w ba ph z,
   fun _ => rfl⟩

theorem claim_c1_witness :
    ((0:ℤ) ≤ 120 ∧ (0:ℤ) ≤ 30 ∧ (0:ℤ) ≤ 0 ∧ (0:ℤ) ≤ 10 ∧ (0:ℤ) < 6) ∧
    (calculate_required_runs_for_zone gFull 0 120 30 30 0 6 Phase.powerplay Zone.target =
        some 49 ↔
      (0 ≤ (49:ℤ) ∧ (49:ℤ) ≤ max (120 - 30) 0 ∧
        projPred gFull 120 30 30 0 6 (zoneUpper Phase.powerplay Zone.target) 49 ∧
        ∀ m : ℤ, 0 ≤ m → m < 49 →
          ¬ projPred gFull 120 30 30 0 6 (zoneUpper Phase.powerplay Zone.target) m)) :=
  ⟨⟨by norm_num, by norm_num, by norm_num, by norm_num, by norm_num⟩,
   (claim_c1 gFull 0 120 30 30 0 6 Phase.powerplay Zone.target (by norm_num) (by norm_num)
      (by norm_num) (by norm_num) (by norm_num) (by norm_num) (Or.inl rfl)).1 49⟩

/-- C2: for fixed target, balls faced, wickets lost and positive innings
length, the pressure index is non-increasing in runs scored (with the
`EReal` order treating the infinity sentinel as above every finite value). -/
theorem claim_c2 (g : Grid) (t b w B r1 r2 : ℤ) (ht : 0 ≤ t) (hb : 0 ≤ b)
    (hw0 : 0 ≤ w) (hw : w ≤ 10) (hB : 0 < B) (hr : r1 ≤ r2) :
    calculate_pressure_index g t r2 b w B ≤ calculate_pressure_index g t r1 b w B :=
  pressure_index_mono_runs g t b w B r1 r2 ht hB hr

theorem claim_c2_witness :
    ((0:ℤ) ≤ 100 ∧ (0:ℤ) ≤ 0 ∧ (0:ℤ) ≤ 2 ∧ (2:ℤ) ≤ 10 ∧ (0:ℤ) < 120 ∧ (10:ℤ) ≤ 20) ∧
    calculate_pressure_index g100 100 20 0 2 120 ≤ calculate_pressure_index g100 100 10 0 2 120 :=
  ⟨⟨by norm_num, by norm_num, by norm_num, by norm_num, by norm_num, by norm_num⟩,
   claim_c2 g100 100 0 2 120 10 20 (by norm_num) (by norm_num) (by norm_num) (by norm_num)
     (by norm_num) (by norm_num)⟩

/-- C3 (counterexample): at target 120, runs 30, balls 30, no wickets and a
full grid, the one-over horizon search for the `target` zone returns 49 —
the bound of the *current* over's phase (powerplay, upper bound 1/2) — while
the phase prevailing at the horizon (over 7, middle overs, upper bound 1)
would give 7, so the bound used is not the horizon phase's. -/
theorem claim_c3_counterexample :
    horizonZoneRuns (calculate_strategic_projections gFull 120 30 30 0 120)
        "next_1_over" Zone.target = some (some 49)
    ∧ get_phase (Int.fdiv (30 + 6) 6 + 1) = Phase.middle_overs
    ∧ calculate_required_runs_for_zone gFull
        (calculate_pressure_index gFull 120 30 30 0 120) 120 30 30 0 6
        Phase.middle_overs Zone.target = some 7
    ∧ (some (some (49 : ℤ)) : Option (Option ℤ)) ≠ some (some 7) :=
  ⟨proj_gFull_next1_target, by decide, search_gFull_mid _, by decide⟩

/-- C3 (amended): the zone upper bound used by every horizon's search is
that of the phase of the *current* over `⌊balls_faced / 6⌋ + 1`, not the
phase at the horizon: each recorded `runs` entry equals
`calculate_required_runs_for_zone` invoked with the current over's phase. -/
theorem claim_c3 (g : Grid) (t r b w B : ℤ) (label : String) (z : Zone)
    (hz : z ≠ Zone.avoid) :
    horizonZoneRuns (calculate_strategic_projections g t r b w B) label z =
      (horizonBalls b B label).map (fun ba =>
        calculate_required_runs_for_zone g (calculate_pressure_index g t r b w B)
          t r b w ba (get_phase (Int.fdiv b 6 + 1)) z)
    ∧ (calculate_strategic_projections g t r b w B).phase =
        get_phase (Int.fdiv b 6 + 1) :=
  ⟨strategic_projections_runs g t r b w B label z hz, rfl⟩

theorem claim_c3_witness :
    Zone.target ≠ Zone.avoid ∧
    (horizonZoneRuns (calculate_strategic_projections gFull 120 30 30 0 120)
        "next_1_over" Zone.target =
      (horizonBalls 30 120 "next_1_over").map (fun ba =>
        calculate_required_runs_for_zone gFull
          (calculate_pressure_index gFull 120 30 30 0 120)
          120 30 30 0 ba (get_phase (Int.fdiv 30 6 + 1)) Zone.target)
    ∧ (calculate_strategic_projections gFull 120 30 30 0 120).phase =
        get_phase (Int.fdiv 30 6 + 1)) :=
  ⟨by decide, claim_c3 gFull 120 30 30 0 120 "next_1_over" Zone.target (by decide)⟩

/-- C4: the per-zone search of `calculate_required_runs_for_zone` evaluates
every projected pressure index with the engine default `total_balls = 120`
(it coincides with the explicit-length search exactly at 120), while the
current PI of `calculate_strategic_projections` uses the supplied length;
at the same state the 120-ball search and a 240-ball search disagree
(49 versus 40 runs). -/
theorem claim_c4 :
    (∀ (g : Grid) (cpi : EReal) (t r b w ba : ℤ) (ph : Phase) (z : Zone),
        calculate_required_runs_for_zone g cpi t r b w ba ph z =
          required_runs_for_zone_with_total g 120 cpi t r b w ba ph z)
    ∧ (∀ (g : Grid) (t r b w B : ℤ),
        (calculate_strategic_projections g t r b w B).current_pi =
          calculate_pressure_index g t r b w B)
    ∧ calculate_required_runs_for_zone gFull 0 120 30 30 0 6 Phase.powerplay Zone.target =
        some 49
    ∧ required_runs_for_zone_with_total gFull 240 0 120 30 30 0 6 Phase.powerplay Zone.target =
        some 40
    ∧ (some (49 : ℤ) : Option ℤ) ≠ some 40 :=
  ⟨fun g cpi t r b w ba ph z => required_runs_eq_wt g cpi t r b w ba ph z,
   fun g t r b w B => strategic_projections_current_pi g t r b w B,
   search_gFull_pp 0, search_gFull_240 0, by decide⟩

/-- C5: under the state invariants, the pressure index is the infinity
sentinel exactly when runs remain and either all wickets are down or no
balls remain; otherwise it is a finite non-negative value.  In particular
the state target 160, runs 140, balls 120, wickets 3, innings 120 yields the
sentinel. -/
theorem claim_c5 (g : Grid) (t r b w B : ℤ) (ht : 0 ≤ t) (hr : 0 ≤ r) (hb : 0 ≤ b)
    (hw0 : 0 ≤ w) (hw : w ≤ 10) (hB : 0 < B) :
    (calculate_pressure_index g t r b w B = ⊤ ↔ (r < t ∧ (10 ≤ w ∨ B - b ≤ 0)))
    ∧ (¬ (r < t ∧ (10 ≤ w ∨ B - b ≤ 0)) →
        ∃ x : ℝ, calculate_pressure_index g t r b w B = (x : EReal) ∧ 0 ≤ x)
    ∧ calculate_pressure_index g 160 140 120 3 120 = ⊤ :=
  ⟨pressure_index_top_iff g t r b w B ht hr hB,
   pressure_index_finite_of g t r b w B ht hr hB,
   (pressure_index_top_iff g 160 140 120 3 120 (by norm_num) (by norm_num)
       (by norm_num)).mpr ⟨by norm_num, Or.inr (by norm_num)⟩⟩

theorem claim_c5_witness :
    ((0:ℤ) ≤ 160 ∧ (0:ℤ) ≤ 140 ∧ (0:ℤ) ≤ 120 ∧ (0:ℤ) ≤ 3 ∧ (3:ℤ) ≤ 10 ∧ (0:ℤ) < 120) ∧
    calculate_pressure_index gSyn 160 140 120 3 120 = ⊤ :=
  ⟨⟨by norm_num, by norm_num, by norm_num, by norm_num, by norm_num, by norm_num⟩,
   (claim_c5 gSyn 160 140 120 3 120 (by norm_num) (by norm_num) (by norm_num)
       (by norm_num) (by norm_num) (by norm_num)).2.2⟩

/-- C6: whenever runs scored reach the target the pressure index is exactly
0, for every balls-faced and wickets-lost value — including all-out states —
because the target-met short circuit precedes the all-out sentinel. -/
theorem claim_c6 (g : Grid) (t r b w B : ℤ) (h : t ≤ r) :
    calculate_pressure_index g t r b w B = 0 :=
  pressure_index_target_met g t r b w B h

theorem claim_c6_witness :
    ((150:ℤ) ≤ 150) ∧ calculate_pressure_index gSyn 150 150 90 10 120 = 0 :=
  ⟨by norm_num, claim_c6 gSyn 150 150 90 10 120 (by norm_num)⟩

/-- C7: `get_resources_remaining` agrees everywhere with the specification's
description (clamp wickets into [0,9], clamp the floored overs and its
successor into [0,20], return 0 whenever the clamped floor is 0, read absent
cells as 0, and interpolate linearly), and on the synthetic grid it yields
exactly 75 at (1.5, 0) and exactly 0 at (0, 1). -/
theorem claim_c7 :
    (∀ (g : Grid) (o : ℚ) (w : ℤ),
        get_resources_remaining g o w = resources_remaining_spec g o w)
    ∧ get_resources_remaining gSyn (3/2) 0 = 75
    ∧ get_resources_remaining gSyn 0 1 = 0 :=
  ⟨resources_remaining_eq_spec, resources_gSyn_mid, resources_gSyn_zero⟩

/-- C8: for every phase and every finite non-negative pressure index,
`get_zone_for_pi` returns the unique zone whose half-open interval contains
the value (the four intervals partition `[0, ∞)`), and the infinity sentinel
is always classified `avoid`. -/
theorem claim_c8 (ph : Phase) :
    (∀ x : ℝ, 0 ≤ x →
        inZoneInterval ph (get_zone_for_pi ((x : ℝ) : EReal) ph) x ∧
          ∀ z : Zone, inZoneInterval ph z x → z = get_zone_for_pi ((x : ℝ) : EReal) ph)
    ∧ get_zone_for_pi ⊤ ph = Zone.avoid := by
  constructor
  · intro x hx
    cases ph
    · exact zone_part_pp x hx
    · exact zone_part_mid x hx
    · exact zone_part_death x hx
  · exact get_zone_top ph

theorem claim_c8_witness :
    (0:ℝ) ≤ 2 ∧
    (inZoneInterval Phase.powerplay (get_zone_for_pi ((2 : ℝ) : EReal) Phase.powerplay) 2 ∧
      ∀ z : Zone, inZoneInterval Phase.powerplay z 2 →
        z = get_zone_for_pi ((2 : ℝ) : EReal) Phase.powerplay) :=
  ⟨by norm_num, (claim_c8 Phase.powerplay).1 2 (by norm_num)⟩

/-- C9: for a resource grid whose effective cells on the table's domain
(overs 0..20, wickets 0..9) are non-negative and non-decreasing in overs at
each fixed wickets value, `get_resources_remaining` is non-decreasing in its
overs-left argument; likewise, for a grid non-increasing in wickets on that
domain, it is non-increasing in the wickets argument.  The internal clamps
confine every lookup to the table's domain, so nothing is assumed of absent
cells outside it. -/
theorem claim_c9 (g : Grid) :
    ((∀ o w : ℤ, 0 ≤ o → o ≤ 20 → 0 ≤ w → w ≤ 9 → 0 ≤ gridVal g o w) →
      (∀ w o1 o2 : ℤ, 0 ≤ w → w ≤ 9 → 0 ≤ o1 → o1 ≤ o2 → o2 ≤ 20 →
        gridVal g o1 w ≤ gridVal g o2 w) →
      ∀ (w : ℤ) (o1 o2 : ℚ), 0 ≤ o1 → o1 ≤ o2 →
        get_resources_remaining g o1 w ≤ get_resources_remaining g o2 w)
    ∧ ((∀ o w1 w2 : ℤ, 0 ≤ o → o ≤ 20 → 0 ≤ w1 → w1 ≤ w2 → w2 ≤ 9 →
        gridVal g o w2 ≤ gridVal g o w1) →
      ∀ (o : ℚ) (w1 w2 : ℤ), w1 ≤ w2 →
        get_resources_remaining g o w2 ≤ get_resources_remaining g o w1) :=
  ⟨fun Hnn Hov => grr_mono_overs g Hnn Hov,
   fun Hwk => grr_antitone_wickets g Hwk⟩

theorem claim_c9_witness :
    get_resources_remaining gMono (3/2) 2 ≤ get_resources_remaining gMono (5/2) 2 ∧
    get_resources_remaining gMono (5/2) 3 ≤ get_resources_remaining gMono (5/2) 2 :=
  ⟨(claim_c9 gMono).1
      (fun o w h1 h2 h3 h4 => by
        simp only [gridVal, gMono]
        rw [if_pos (⟨h1, h2, h3, h4⟩ : 0 ≤ o ∧ o ≤ 20 ∧ 0 ≤ w ∧ w ≤ 9)]
        simp only [Option.getD_some]
        exact_mod_cast (by omega : (0 : ℤ) ≤ 4 * o + 20 - w))
      (fun w o1 o2 hw1 hw2 h1 h12 h2 => by
        simp only [gridVal, gMono]
        rw [if_pos (⟨h1, by omega, hw1, hw2⟩ : 0 ≤ o1 ∧ o1 ≤ 20 ∧ 0 ≤ w ∧ w ≤ 9),
          if_pos (⟨by omega, h2, hw1, hw2⟩ : 0 ≤ o2 ∧ o2 ≤ 20 ∧ 0 ≤ w ∧ w ≤ 9)]
        simp only [Option.getD_some]
        exact_mod_cast (by omega : (4 * o1 + 20 - w : ℤ) ≤ 4 * o2 + 20 - w))
      2 (3/2) (5/2) (by norm_num) (by norm_num),
   (claim_c9 gMono).2
      (fun o w1 w2 h1 h2 hw1 hw12 hw2 => by
        simp only [gridVal, gMono]
        rw [if_pos (⟨h1, h2, by omega, hw2⟩ : 0 ≤ o ∧ o ≤ 20 ∧ 0 ≤ w2 ∧ w2 ≤ 9),
          if_pos (⟨h1, h2, hw1, by omega⟩ : 0 ≤ o ∧ o ≤ 20 ∧ 0 ≤ w1 ∧ w1 ≤ 9)]
        simp only [Option.getD_some]
        exact_mod_cast (by omega : (4 * o + 20 - w2 : ℤ) ≤ 4 * o + 20 - w1))
      (5/2) 2 3 (by norm_num)⟩

/-- C10: on every in-invariant state, the checked variants of the core
operations — with every division guarded and every lookup defaulted —
succeed and agree with the total embeddings (so no operation can raise),
and the zone classifier always yields one of the four labels. -/
theorem claim_c10 (g : Grid) (t r b w B ba : ℤ) (ph : Phase) (z : Zone) (cpi : EReal)
    (ht : 0 ≤ t) (hr : 0 ≤ r) (hb : 0 ≤ b) (hw0 : 0 ≤ w) (hw : w ≤ 10) (hB : 0 < B) :
    resources_used_checked g b w B = some (get_resources_used g b w B)
    ∧ pressure_index_checked g t r b w B = some (calculate_pressure_index g t r b w B)
    ∧ required_runs_checked g cpi t r b w ba ph z =
        some (calculate_required_runs_for_zone g cpi t r b w ba ph z)
    ∧ calculate_strategic_projections_checked g t r b w B =
        some (calculate_strategic_projections g t r b w B)
    ∧ (get_zone_for_pi cpi ph = Zone.target ∨ get_zone_for_pi cpi ph = Zone.acceptable ∨
        get_zone_for_pi cpi ph = Zone.risky ∨ get_zone_for_pi cpi ph = Zone.avoid) :=
  ⟨resources_used_checked_eq g b w B, pressure_index_checked_eq g t r b w B,
   required_runs_checked_eq g cpi t r b w ba ph z,
   strategic_projections_checked_eq g t r b w B,
   by cases h : get_zone_for_pi cpi ph <;> simp [h]⟩

theorem claim_c10_witness :
    ((0:ℤ) ≤ 150 ∧ (0:ℤ) ≤ 60 ∧ (0:ℤ) ≤ 30 ∧ (0:ℤ) ≤ 2 ∧ (2:ℤ) ≤ 10 ∧ (0:ℤ) < 120) ∧
    pressure_index_checked gSyn 150 60 30 2 120 =
      some (calculate_pressure_index gSyn 150 60 30 2 120) :=
  ⟨⟨by norm_num, by norm_num, by norm_num, by norm_num, by norm_num, by norm_num⟩,
   (claim_c10 gSyn 150 60 30 2 120 6 Phase.powerplay Zone.target 0 (by norm_num)
      (by norm_num) (by norm_num) (by norm_num) (by norm_num) (by norm_num)).2.1⟩
